import Mathlib

/-!
# Shallow embedding of the `Room` durable-object coordinator (`src/api/room.ts`)

The room state (`RoomData`), its operations (session join/close, settings
update, game start, timer tick, guess handling, scoring, drawing update,
round end) and the broadcasts they emit are translated into pure Lean
functions.  Every operation is modelled as a function from the stored
`RoomData` (plus the operation's inputs and the random / clock values the
JavaScript code draws) to the new stored `RoomData` together with the list
of messages broadcast, in emission order.

JavaScript numbers are modelled as `ℚ`; `Math.round` as `jsRound`
(round half toward positive infinity, which is `Math.round`'s behaviour);
JavaScript objects used as string-keyed maps are modelled as association
lists that preserve key insertion order, matching `Object.entries`.
-/

namespace AnyoneCanDraw

/-- Modelled from the spec: the fixed identifier of the simulated AI
participant (`AI_PLAYER_ID` from `src/api/constants`, a file not present
in the sources; the spec only says the AI is a distinguished injected
participant, so its identifier is an arbitrary fixed string). -/
def AI_PLAYER_ID : String := "ai-player"

/-- Modelled from the spec: the word list (`GAME_WORDS` from
`src/api/constants`, not present in the sources; the spec declares the
word list's content out of scope, so any fixed non-empty list stands in). -/
def GAME_WORDS : List String := ["cat", "dog", "house"]

/-- `Math.round`: round half toward positive infinity. -/
def jsRound (q : ℚ) : ℤ := ⌊q + 1/2⌋

/-- JavaScript `x || d` for numeric options: `undefined` and `0` are falsy. -/
def numOr (v : Option ℚ) (d : ℚ) : ℚ :=
  match v with
  | none => d
  | some x => if x = 0 then d else x

/-- Lookup in an insertion-ordered string-keyed map; a missing key reads as
the default (JavaScript `undefined` coerced by the use site). -/
def lookupEntry (l : List (String × α)) (k : String) : Option α :=
  (l.find? (fun p => p.1 = k)).map Prod.snd

/-- JavaScript `obj[k] = v`: overwrite in place if the key exists
(preserving key order), else append the new key. -/
def setEntry (l : List (String × α)) (k : String) (v : α) : List (String × α) :=
  if l.any (fun p => p.1 = k) then
    l.map (fun p => if p.1 = k then (k, v) else p)
  else
    l ++ [(k, v)]

/-- `connectedUsers[u]` used as a boolean (missing key is falsy). -/
def flagOf (l : List (String × Bool)) (k : String) : Bool :=
  (lookupEntry l k).getD false

/-- `RoomData.settings` (src/api/room.ts lines 31-39); the optional fields
are optional in the TypeScript interface. -/
structure Settings where
  gameDuration : ℚ
  minPlayers : ℚ
  maxPlayers : ℚ
  aiEnabled : Option Bool
  aiGuessCooldown : Option ℚ
  correctGuesserScore : Option ℚ
  correctDrawerScore : Option ℚ
deriving Repr, DecidableEq

/-- A guess record (src/api/room.ts lines 21-27). -/
structure GuessRecord where
  playerId : String
  playerName : String
  guess : String
  timestamp : ℚ
  correct : Bool
deriving Repr, DecidableEq

/-- `statusMessage` (src/api/room.ts lines 41-44); `success : Bool` encodes
the `'success' | 'failure'` tag. -/
structure StatusMessage where
  success : Bool
  message : String
deriving Repr, DecidableEq

/-- The `RoomData` aggregate (src/api/room.ts lines 10-46). -/
structure RoomData where
  key : String
  users : List String
  moderator : String
  connectedUsers : List (String × Bool)
  timerInterval : ℚ
  lastAIGuessTime : ℚ
  isActive : Bool
  isLobby : Bool
  targetWord : String
  timeRemaining : ℚ
  guesses : List GuessRecord
  hasWon : Bool
  currentDrawer : String
  drawingData : String
  settings : Settings
  scores : Option (List (String × ℚ))
  statusMessage : Option StatusMessage
  endTime : Option ℚ
deriving Repr, DecidableEq

/-- Messages sent to clients, tagged with the payload fields the claims
mention. -/
inductive Event where
  | userJoined (name : String)
  | userConnectionStatus (user : String) (isConnected : Bool)
  | newModerator (name : String)
  | settingsUpdated (settings : Settings)
  | gameStarted
  | youAreDrawing (targetWord : String)
  | timeUpdate (timeRemaining : ℚ)
  | drawingUpdate (drawingData : String)
  | newGuess (playerName : String) (guess : String) (correct : Bool)
  | correctGuess (playerName : String)
  | roundEnd (success : Bool) (word : String)
deriving Repr, DecidableEq

/-- The default settings object written by the constructor and by
`/initialize` (src/api/room.ts lines 87-95 and 164-172). -/
def defaultSettings : Settings where
  gameDuration := 60
  minPlayers := 2
  maxPlayers := 10
  aiEnabled := some false
  aiGuessCooldown := some 5000
  correctGuesserScore := some 10
  correctDrawerScore := some 5

/-- The blank room the constructor writes when no `roomData` is stored
(src/api/room.ts lines 72-96). -/
def constructorRoom : RoomData where
  key := ""
  users := []
  moderator := ""
  connectedUsers := []
  timerInterval := 0
  lastAIGuessTime := 0
  isActive := false
  isLobby := true
  targetWord := ""
  timeRemaining := 0
  guesses := []
  hasWon := false
  currentDrawer := ""
  drawingData := ""
  settings := defaultSettings
  scores := none
  statusMessage := none
  endTime := none

/-- The room written by `POST /initialize` (src/api/room.ts lines 149-175). -/
def initializeRoom (roomKey moderator : String) : RoomData where
  key := roomKey
  users := [moderator]
  moderator := moderator
  connectedUsers := [(moderator, true)]
  timerInterval := 0
  lastAIGuessTime := 0
  isActive := false
  isLobby := true
  targetWord := ""
  timeRemaining := 60
  guesses := []
  hasWon := false
  currentDrawer := ""
  drawingData := ""
  settings := defaultSettings
  scores := none
  statusMessage := none
  endTime := none

theorem lookupEntry_nil (k : String) : lookupEntry ([] : List (String × α)) k = none := rfl

theorem lookupEntry_cons (k' : String) (v : α) (l : List (String × α)) (k : String) :
    lookupEntry ((k', v) :: l) k = if k' = k then some v else lookupEntry l k := by
  by_cases h : k' = k <;> simp [lookupEntry, List.find?_cons, h]

theorem lookupEntry_overwrite (l : List (String × α)) (k k' : String) (v : α) :
    lookupEntry (l.map (fun p => if p.1 = k then (k, v) else p)) k' =
      if k' = k then (lookupEntry l k).map (fun _ => v) else lookupEntry l k' := by
  induction l with
  | nil => by_cases h : k' = k <;> simp [lookupEntry, h]
  | cons hd tl ih =>
    obtain ⟨hk, hv⟩ := hd
    by_cases h1 : hk = k
    · subst h1
      by_cases h2 : k' = hk
      · subst h2
        simp [lookupEntry_cons, ih]
      · have h2' : ¬(hk = k') := fun hh => h2 hh.symm
        simp [lookupEntry_cons, h2', h2, ih]
    · by_cases h2 : k' = k
      · subst h2
        have h1' : ¬(hk = k') := h1
        simp [lookupEntry_cons, h1, h1', ih]
      · by_cases h3 : hk = k'
        · subst h3
          simp [lookupEntry_cons, h1, h2]
        · simp [lookupEntry_cons, h1, h2, h3, ih]

theorem hasKey_eq_isSome (l : List (String × α)) (k : String) :
    l.any (fun p => p.1 = k) = (lookupEntry l k).isSome := by
  induction l with
  | nil => simp [lookupEntry]
  | cons hd tl ih =>
    obtain ⟨hk, hv⟩ := hd
    by_cases h : hk = k <;> simp [h, lookupEntry_cons, ih]

theorem lookupEntry_setEntry (l : List (String × α)) (k : String) (v : α) (k' : String) :
    lookupEntry (setEntry l k v) k' = if k' = k then some v else lookupEntry l k' := by
  unfold setEntry
  by_cases h : l.any (fun p => p.1 = k)
  · rw [if_pos h, lookupEntry_overwrite]
    by_cases h2 : k' = k
    · rw [hasKey_eq_isSome] at h
      obtain ⟨w, hw⟩ := Option.isSome_iff_exists.mp h
      simp [h2, hw]
    · simp [h2]
  · rw [if_neg h]
    show Option.map Prod.snd (List.find? (fun p => decide (p.1 = k')) (l ++ [(k, v)])) = _
    rw [List.find?_append]
    by_cases h2 : k' = k
    · subst h2
      rw [hasKey_eq_isSome] at h
      have hnone : List.find? (fun p => decide (p.1 = k')) l = none := by
        cases hl : List.find? (fun p => decide (p.1 = k')) l with
        | none => rfl
        | some w =>
          exfalso
          apply h
          unfold lookupEntry
          rw [hl]
          rfl
      rw [hnone]
      simp [List.find?_cons]
    · have h2' : ¬(k = k') := fun hh => h2 hh.symm
      have hsingle : List.find? (fun p => decide (p.1 = k')) [(k, v)] = none := by
        simp [List.find?_cons, h2']
      rw [hsingle, if_neg h2]
      cases hl : List.find? (fun p => decide (p.1 = k')) l with
      | none => simp [lookupEntry, hl]
      | some w => simp [lookupEntry, hl]

theorem flagOf_setEntry (l : List (String × Bool)) (k : String) (v : Bool) (k' : String) :
    flagOf (setEntry l k v) k' = if k' = k then v else flagOf l k' := by
  unfold flagOf
  rw [lookupEntry_setEntry]
  by_cases h : k' = k <;> simp [h]

/-- JavaScript `String.prototype.toLowerCase` restricted to ASCII letters
(the word list and guesses in scope are ASCII), per character. -/
def jsCharToLower (c : Char) : Char :=
  if 'A' ≤ c ∧ c ≤ 'Z' then Char.ofNat (c.toNat + 32) else c

/-- `guess.toLowerCase()`. -/
def jsToLower (s : String) : String := ⟨s.data.map jsCharToLower⟩

/-- `guess.trim()`: strip leading and trailing whitespace. -/
def jsTrim (s : String) : String :=
  ⟨((s.data.dropWhile Char.isWhitespace).reverse.dropWhile Char.isWhitespace).reverse⟩

/-- A patch object for `PUT /settings` / the `updateSettings` message:
each absent key leaves the old value in place (`{...old, ...patch}`). -/
structure SettingsPatch where
  gameDuration : Option ℚ
  minPlayers : Option ℚ
  maxPlayers : Option ℚ
  aiEnabled : Option Bool
  aiGuessCooldown : Option ℚ
  correctGuesserScore : Option ℚ
  correctDrawerScore : Option ℚ
deriving Repr, DecidableEq

/-- The empty patch (`{}`). -/
def SettingsPatch.empty : SettingsPatch :=
  ⟨none, none, none, none, none, none, none⟩

/-- `{...roomData.settings, ...settings}` (src/api/room.ts lines 284-287
and 592-595). -/
def mergeSettings (old : Settings) (p : SettingsPatch) : Settings where
  gameDuration := p.gameDuration.getD old.gameDuration
  minPlayers := p.minPlayers.getD old.minPlayers
  maxPlayers := p.maxPlayers.getD old.maxPlayers
  aiEnabled := match p.aiEnabled with | some b => some b | none => old.aiEnabled
  aiGuessCooldown := match p.aiGuessCooldown with | some x => some x | none => old.aiGuessCooldown
  correctGuesserScore :=
    match p.correctGuesserScore with | some x => some x | none => old.correctGuesserScore
  correctDrawerScore :=
    match p.correctDrawerScore with | some x => some x | none => old.correctDrawerScore

/-- `handleUpdateSettings` (src/api/room.ts lines 583-604): the WebSocket
`updateSettings` message.  A non-moderator request returns silently
without touching the stored state and without broadcasting. -/
def handleUpdateSettings (s : RoomData) (userName : String) (p : SettingsPatch) :
    RoomData × List Event :=
  if s.moderator ≠ userName then (s, [])
  else
    let s' := { s with settings := mergeSettings s.settings p }
    (s', [Event.settingsUpdated s'.settings])

/-- `PUT /settings` (src/api/room.ts lines 258-306).  Returns the new
state, the HTTP status code sent to the requester, and the broadcasts. -/
def putSettings (s : RoomData) (name : String) (p : SettingsPatch) :
    RoomData × Nat × List Event :=
  if s.key = "" then (s, 404, [])
  else if s.moderator ≠ name then (s, 403, [])
  else
    let s' := { s with settings := mergeSettings s.settings p }
    (s', 200, [Event.settingsUpdated s'.settings])

/-- `POST /join` (src/api/room.ts lines 189-233), success path effects on
the stored room (the 404 branch when the room has no key changes
nothing). -/
def handleJoin (s : RoomData) (name : String) : RoomData × List Event :=
  if s.key = "" then (s, [])
  else
    let users := if s.users.contains name then s.users else s.users ++ [name]
    let s' := { s with users := users,
                       connectedUsers := setEntry s.connectedUsers name true }
    (s', [Event.userJoined name])

/-- WebSocket accept path of `handleSession` (src/api/room.ts lines
474-499): mark the user present and connected. -/
def handleSessionConnect (s : RoomData) (userName : String) : RoomData × List Event :=
  let users := if s.users.contains userName then s.users else s.users ++ [userName]
  let s' := { s with users := users,
                     connectedUsers := setEntry s.connectedUsers userName true }
  (s', [Event.userConnectionStatus userName true])

/-- The `users.filter(user => connectedUsers[user])` list (src/api/room.ts
line 564): members in join order whose connection flag is set. -/
def connectedMembers (s : RoomData) : List String :=
  s.users.filter (fun u => flagOf s.connectedUsers u)

/-- The close listener of `handleSession` (src/api/room.ts lines 533-580)
in the case where the closing socket was the user's last live connection
(`stillConnected` false); with connections remaining it does not touch the
stored room at all. -/
def handleCloseLast (s : RoomData) (userName : String) : RoomData × List Event :=
  let s1 := { s with connectedUsers := setEntry s.connectedUsers userName false }
  let ev1 := Event.userConnectionStatus userName false
  if userName = s1.moderator then
    match connectedMembers s1 with
    | [] => (s1, [ev1])
    | m :: _ => ({ s1 with moderator := m }, [ev1, Event.newModerator m])
  else
    (s1, [ev1])

/-- `array[Math.floor(Math.random() * array.length)]`: the caller supplies
the random draw as an index, reduced modulo the length. -/
def pickFrom (l : List String) (i : Nat) : String :=
  if l.isEmpty then "" else l.getD (i % l.length) ""

/-- `Object.entries(connectedUsers).filter(connected).map(user)`
(src/api/room.ts lines 617-619), in key-insertion order. -/
def connectedList (s : RoomData) : List String :=
  (s.connectedUsers.filter (fun p => p.2)).map Prod.fst

/-- `startGameTimer` (src/api/room.ts lines 682-700): records a live
interval handle (modelled as the token `1`) when a timed active round is
running. -/
def startGameTimer (s : RoomData) : RoomData :=
  if s.isActive = true ∧ 0 < s.timeRemaining then { s with timerInterval := 1 } else s

/-- `handleStartGame` (src/api/room.ts lines 606-680).  `wordPick` and
`drawerPick` are the random draws for the target word and the drawer;
`now` is `Date.now()`.  Note the source checks only moderator authority
and the connected-player count — there is no phase check. -/
def handleStartGame (s : RoomData) (userName : String) (wordPick drawerPick : Nat)
    (now : ℚ) : RoomData × List Event :=
  if s.moderator ≠ userName then (s, [])
  else if ((connectedList s).length : ℚ) < s.settings.minPlayers then (s, [])
  else
    let randomWord := pickFrom GAME_WORDS wordPick
    let randomDrawer := pickFrom (connectedList s) drawerPick
    let s1 := { s with
      isActive := true
      isLobby := false
      targetWord := randomWord
      timeRemaining := s.settings.gameDuration
      guesses := []
      hasWon := false
      currentDrawer := randomDrawer
      endTime := some (now + s.settings.gameDuration * 1000)
      drawingData := ""
      scores := some (s.users.foldl (fun m u => setEntry m u 0) []) }
    let s2 :=
      if s1.settings.aiEnabled.getD false then
        let users' :=
          if s1.users.contains AI_PLAYER_ID then s1.users else s1.users ++ [AI_PLAYER_ID]
        let conn' :=
          if s1.users.contains AI_PLAYER_ID then s1.connectedUsers
          else setEntry s1.connectedUsers AI_PLAYER_ID true
        { s1 with users := users', connectedUsers := conn',
                  scores := some (setEntry (s1.scores.getD []) AI_PLAYER_ID 0) }
      else s1
    let s3 := startGameTimer s2
    (s3, [Event.gameStarted, Event.youAreDrawing s3.targetWord])

/-- `handleRoundEnd` (src/api/room.ts lines 880-914). -/
def handleRoundEnd (s : RoomData) (success : Bool) : RoomData × List Event :=
  let oldWord := s.targetWord
  let msg : StatusMessage :=
    { success := success
      message :=
        if success then "Everyone guessed correctly! The word was \x22" ++ oldWord ++ "\x22"
        else "Time's up! The word was \x22" ++ oldWord ++ "\x22" }
  let s' := { s with
    isActive := false
    isLobby := true
    targetWord := ""
    timeRemaining := s.settings.gameDuration
    hasWon := success
    currentDrawer := ""
    endTime := none
    statusMessage := some msg
    timerInterval := if s.timerInterval ≠ 0 then 0 else s.timerInterval }
  (s', [Event.roundEnd success oldWord])

/-- `updateGameTimer` (src/api/room.ts lines 702-720): one timer tick. -/
def updateGameTimer (s : RoomData) : RoomData × List Event :=
  if s.isActive = false then (s, [])
  else
    let s1 := { s with timeRemaining := max 0 (s.timeRemaining - 1) }
    if s1.timeRemaining ≤ 0 then handleRoundEnd s1 false
    else (s1, [Event.timeUpdate s1.timeRemaining])

/-- `users.filter(user => user !== currentDrawer && user !== AI_PLAYER_ID)`
(src/api/room.ts lines 775-777): the non-drawer, non-AI participants. -/
def nonDrawerPlayers (s : RoomData) : List String :=
  s.users.filter (fun u => u ≠ s.currentDrawer ∧ u ≠ AI_PLAYER_ID)

/-- `handleCorrectGuess` (src/api/room.ts lines 762-814): called with the
state in which the correct guess has already been appended. -/
def handleCorrectGuess (s : RoomData) (userName : String) : RoomData × List Event :=
  let timeBasedMultiplier := s.timeRemaining / s.settings.gameDuration
  let guesserScore := numOr s.settings.correctGuesserScore 10
  let scores0 := s.scores.getD []
  let scores1 := setEntry scores0 userName
    ((lookupEntry scores0 userName).getD 0 +
      (jsRound (guesserScore * timeBasedMultiplier * 10) : ℚ) / 10)
  let drawerScore := numOr s.settings.correctDrawerScore 5
  let scores2 :=
    if 0 < (nonDrawerPlayers s).length ∧ s.currentDrawer ≠ "" then
      setEntry scores1 s.currentDrawer
        ((lookupEntry scores1 s.currentDrawer).getD 0 +
          (jsRound (drawerScore * timeBasedMultiplier / ((nonDrawerPlayers s).length : ℚ) * 10) : ℚ) / 10)
    else scores1
  let s1 := { s with scores := some scores2 }
  let correctPlayers := (s1.guesses.filter (fun g => g.correct)).map (fun g => g.playerId)
  if (nonDrawerPlayers s).all (fun p => correctPlayers.contains p) then
    handleRoundEnd s1 true
  else
    let s2 := { s1 with
      statusMessage := some ⟨true, userName ++ " guessed correctly!"⟩ }
    (s2, [Event.correctGuess userName])

/-- `handleGuess` (src/api/room.ts lines 722-760); `now` is `Date.now()`
for the appended record's timestamp. -/
def handleGuess (s : RoomData) (userName guess : String) (now : ℚ) :
    RoomData × List Event :=
  if s.isActive = false then (s, [])
  else if userName = s.currentDrawer then (s, [])
  else
    let normalizedGuess := jsToLower (jsTrim guess)
    let normalizedTarget := jsToLower s.targetWord
    let s1 := { s with guesses := s.guesses ++
      [{ playerId := userName, playerName := userName, guess := guess,
         timestamp := now, correct := normalizedGuess = normalizedTarget }] }
    if normalizedGuess = normalizedTarget then
      handleCorrectGuess s1 userName
    else
      (s1, [Event.newGuess userName guess false])

/-- The AI-trigger condition of `handleDrawingUpdate` (src/api/room.ts
lines 828-833). -/
def shouldAIGuess (s : RoomData) (now : ℚ) : Bool :=
  s.settings.aiEnabled.getD false && flagOf s.connectedUsers AI_PLAYER_ID &&
    (decide (s.lastAIGuessTime = 0) ||
      decide (numOr s.settings.aiGuessCooldown 5000 ≤ now - s.lastAIGuessTime))

/-- `processAIGuess` (src/api/room.ts lines 845-878).  `aiRoll` is the
single `Math.random()` draw and `wrongPick` the index draw for a wrong
word.  The source sets `lastAIGuessTime` on the in-memory object before
re-entering `handleGuess`; modelled as sequential state passing. -/
def processAIGuess (s : RoomData) (aiRoll : ℚ) (wrongPick : Nat) (now : ℚ) :
    RoomData × List Event :=
  if s.guesses.any (fun g => g.playerId = AI_PLAYER_ID && g.correct) then (s, [])
  else if 9/10 < aiRoll then
    handleGuess { s with lastAIGuessTime := now } AI_PLAYER_ID s.targetWord now
  else if 7/10 < aiRoll then
    let wrongGuesses := GAME_WORDS.filter (fun w =>
      w ≠ s.targetWord ∧
        ¬ s.guesses.any (fun g => g.playerId = AI_PLAYER_ID && g.guess = w))
    match wrongGuesses with
    | [] => (s, [])
    | _ :: _ =>
      handleGuess { s with lastAIGuessTime := now } AI_PLAYER_ID
        (pickFrom wrongGuesses wrongPick) now
  else (s, [])

/-- `handleDrawingUpdate` (src/api/room.ts lines 816-843). -/
def handleDrawingUpdate (s : RoomData) (userName drawingData : String)
    (aiRoll : ℚ) (wrongPick : Nat) (now : ℚ) : RoomData × List Event :=
  if s.isActive = false then (s, [])
  else if userName ≠ s.currentDrawer then (s, [])
  else
    let s1 := { s with drawingData := drawingData }
    let p := if shouldAIGuess s1 now then processAIGuess s1 aiRoll wrongPick now else (s1, [])
    (p.1, p.2 ++ [Event.drawingUpdate drawingData])

/-- The `targetWord` field of the snapshot returned by `GET /game-state`
(src/api/room.ts lines 436-463): `none` models the key being absent from
the serialized snapshot (`undefined`).  `name` is the `name` query
parameter (`none` when missing); note `!name` is also true for the empty
string. -/
def gameStateTargetWord (s : RoomData) (name : Option String) : Option String :=
  let hideTargetWord :=
    match name with
    | none => true
    | some n => decide (n = "") || decide (n ≠ s.currentDrawer)
  if hideTargetWord then none else some s.targetWord

/-- States reachable from a freshly constructed or initialized room by the
modelled operations, over all inputs, random draws and clock values. -/
inductive Reachable : RoomData → Prop where
  | ctor : Reachable constructorRoom
  | init (k m : String) : Reachable (initializeRoom k m)
  | join {s} (name : String) : Reachable s → Reachable (handleJoin s name).1
  | connect {s} (name : String) : Reachable s → Reachable (handleSessionConnect s name).1
  | closeLast {s} (name : String) : Reachable s → Reachable (handleCloseLast s name).1
  | settingsWS {s} (name : String) (p : SettingsPatch) :
      Reachable s → Reachable (handleUpdateSettings s name p).1
  | settingsHTTP {s} (name : String) (p : SettingsPatch) :
      Reachable s → Reachable (putSettings s name p).1
  | startGame {s} (name : String) (w d : Nat) (t : ℚ) :
      Reachable s → Reachable (handleStartGame s name w d t).1
  | tick {s} : Reachable s → Reachable (updateGameTimer s).1
  | guess {s} (name g : String) (t : ℚ) : Reachable s → Reachable (handleGuess s name g t).1
  | drawing {s} (name data : String) (roll : ℚ) (wp : Nat) (t : ℚ) :
      Reachable s → Reachable (handleDrawingUpdate s name data roll wp t).1

/-- A user's score as read back from the optional `scores` map
(`roomData.scores?.[u] || 0`). -/
def scoreOf (s : RoomData) (u : String) : ℚ :=
  (lookupEntry (s.scores.getD []) u).getD 0

/-- A 3-player room in the middle of an active round: drawer `alice`,
target word `cat`, half the default duration left. -/
def activeRoom : RoomData :=
  { constructorRoom with
    key := "room1"
    users := ["alice", "bob", "carol"]
    moderator := "alice"
    connectedUsers := [("alice", true), ("bob", true), ("carol", true)]
    isActive := true
    isLobby := false
    targetWord := "cat"
    timeRemaining := 30
    currentDrawer := "alice"
    timerInterval := 1
    scores := some [] }

/-- `activeRoom` with a different target word (used to observe mutation). -/
def activeRoomDog : RoomData :=
  { activeRoom with targetWord := "dog" }

/-- An active round in a room whose `users` list contains the AI
participant (as `handleStartGame` arranges when `aiEnabled` is set). -/
def aiActiveRoom : RoomData :=
  { activeRoom with
    users := ["alice", "bob", AI_PLAYER_ID]
    connectedUsers := [("alice", true), ("bob", true), (AI_PLAYER_ID, true)] }

theorem handleRoundEnd_guesses (s : RoomData) (b : Bool) :
    (handleRoundEnd s b).1.guesses = s.guesses := rfl

theorem handleRoundEnd_scores (s : RoomData) (b : Bool) :
    (handleRoundEnd s b).1.scores = s.scores := rfl

theorem handleRoundEnd_isActive (s : RoomData) (b : Bool) :
    (handleRoundEnd s b).1.isActive = false := rfl

theorem handleRoundEnd_isLobby (s : RoomData) (b : Bool) :
    (handleRoundEnd s b).1.isLobby = true := rfl

theorem handleRoundEnd_events (s : RoomData) (b : Bool) :
    (handleRoundEnd s b).2 = [Event.roundEnd b s.targetWord] := rfl

theorem handleCorrectGuess_guesses (s : RoomData) (u : String) :
    (handleCorrectGuess s u).1.guesses = s.guesses := by
  simp only [handleCorrectGuess]
  split
  · exact handleRoundEnd_guesses _ _
  · rfl

theorem startGameTimer_targetWord (s : RoomData) :
    (startGameTimer s).targetWord = s.targetWord := by
  unfold startGameTimer
  split <;> rfl

theorem startGameTimer_isActive (s : RoomData) :
    (startGameTimer s).isActive = s.isActive := by
  unfold startGameTimer
  split <;> rfl

theorem startGameTimer_isLobby (s : RoomData) :
    (startGameTimer s).isLobby = s.isLobby := by
  unfold startGameTimer
  split <;> rfl

theorem startGameTimer_guesses (s : RoomData) :
    (startGameTimer s).guesses = s.guesses := by
  unfold startGameTimer
  split <;> rfl

theorem startGameTimer_scores (s : RoomData) :
    (startGameTimer s).scores = s.scores := by
  unfold startGameTimer
  split <;> rfl

theorem startGameTimer_currentDrawer (s : RoomData) :
    (startGameTimer s).currentDrawer = s.currentDrawer := by
  unfold startGameTimer
  split <;> rfl

theorem startGameTimer_timeRemaining (s : RoomData) :
    (startGameTimer s).timeRemaining = s.timeRemaining := by
  unfold startGameTimer
  split <;> rfl

theorem startGameTimer_hasWon (s : RoomData) :
    (startGameTimer s).hasWon = s.hasWon := by
  unfold startGameTimer
  split <;> rfl

theorem startGameTimer_timerInterval_pos (s : RoomData) (h1 : s.isActive = true)
    (h2 : 0 < s.timeRemaining) : (startGameTimer s).timerInterval = 1 := by
  unfold startGameTimer
  rw [if_pos ⟨h1, h2⟩]

/-- C3: a timer tick on a room whose phase is Lobby (`isActive` false)
leaves the state untouched and broadcasts nothing — in particular no
`roundEnd` or `timeUpdate` message and no resurrected Active phase. -/
theorem tick_lobby_noop (s : RoomData) (h : s.isActive = false) :
    updateGameTimer s = (s, []) := by
  simp [updateGameTimer, h]

theorem tick_lobby_noop_witness :
    constructorRoom.isActive = false ∧
      updateGameTimer constructorRoom = (constructorRoom, []) :=
  ⟨rfl, tick_lobby_noop constructorRoom rfl⟩

/-- C9: `submitGuess` leaves the room untouched (and silent) when the
round is not active or the guesser is the drawer; otherwise it appends
exactly one guess record whose `correct` flag is the trimmed,
case-insensitive equality of the text with `targetWord`. -/
theorem submitGuess_spec (s : RoomData) (u g : String) (t : ℚ) :
    (s.isActive = false ∨ u = s.currentDrawer → handleGuess s u g t = (s, [])) ∧
    (s.isActive = true → u ≠ s.currentDrawer →
      (handleGuess s u g t).1.guesses =
        s.guesses ++ [{ playerId := u, playerName := u, guess := g, timestamp := t,
                        correct := decide (jsToLower (jsTrim g) = jsToLower s.targetWord) }]) := by
  constructor
  · rintro (h | h)
    · simp [handleGuess, h]
    · simp only [handleGuess, h]
      split <;> simp
  · intro hA hD
    have htf : ¬(true = false) := by decide
    simp only [handleGuess, hA, if_neg hD, if_neg htf]
    split
    · rw [handleCorrectGuess_guesses]
    · rfl

theorem submitGuess_spec_witness :
    handleGuess constructorRoom "bob" "cat" 0 = (constructorRoom, []) ∧
    (handleGuess activeRoom "bob" "cat" 0).1.guesses =
      [{ playerId := "bob", playerName := "bob", guess := "cat", timestamp := 0,
         correct := true }] := by
  refine ⟨(submitGuess_spec constructorRoom "bob" "cat" 0).1 (Or.inl rfl), ?_⟩
  have h := (submitGuess_spec activeRoom "bob" "cat" 0).2 rfl (by decide)
  rw [h]
  have hc : (decide (jsToLower (jsTrim "cat") = jsToLower activeRoom.targetWord)) = true := by
    decide
  rw [hc]
  rfl

/-- A lobby-phase room (`currentDrawer` is the empty string, as the
constructor and `handleRoundEnd` leave it) whose stored `targetWord` is
nonetheless nonempty. -/
def lobbyWordRoom : RoomData :=
  { constructorRoom with targetWord := "cat" }

/-- C6 counterexample: a requester whose `name` query parameter is the
empty string equals `currentDrawer` (also empty), yet the snapshot omits
`targetWord`, because `!name` in the route is true for `""`.  This
refutes "contains targetWord if and only if the requester name equals
currentDrawer". -/
theorem getState_empty_name_counterexample :
    some "" = some lobbyWordRoom.currentDrawer ∧
      gameStateTargetWord lobbyWordRoom (some "") = none :=
  ⟨rfl, rfl⟩

/-- C6 (amended): the snapshot's `targetWord` is present exactly when the
requester supplied a nonempty name equal to `currentDrawer`; whenever it
is present its value is the stored target word. -/
theorem getState_targetWord_spec (s : RoomData) (name : Option String) :
    ((gameStateTargetWord s name).isSome = true ↔
      name = some s.currentDrawer ∧ s.currentDrawer ≠ "") ∧
    (∀ w, gameStateTargetWord s name = some w → w = s.targetWord) := by
  cases name with
  | none =>
    refine ⟨?_, ?_⟩
    · simp [gameStateTargetWord]
    · intro w hw
      simp [gameStateTargetWord] at hw
  | some n =>
    by_cases h1 : n = ""
    · subst h1
      refine ⟨?_, ?_⟩
      · simp only [gameStateTargetWord]
        simp
        intro he
        exact he.symm
      · intro w hw
        simp [gameStateTargetWord] at hw
    · by_cases h2 : n = s.currentDrawer
      · subst h2
        refine ⟨?_, ?_⟩
        · simp [gameStateTargetWord, h1]
        · intro w hw
          simp [gameStateTargetWord, h1] at hw
          exact hw.symm
      · refine ⟨?_, ?_⟩
        · simp [gameStateTargetWord, h1, h2]
        · intro w hw
          simp [gameStateTargetWord, h1, h2] at hw

theorem getState_targetWord_spec_witness :
    (gameStateTargetWord activeRoom (some "alice")).isSome = true ∧
      "cat" = activeRoom.targetWord :=
  ⟨(getState_targetWord_spec activeRoom (some "alice")).1.mpr ⟨rfl, by decide⟩,
   (getState_targetWord_spec activeRoom (some "alice")).2 "cat" rfl⟩

/-- C7: a settings update by anyone other than the moderator leaves the
whole room state unchanged, answers 403 Forbidden on the HTTP route
(silently returns on the WebSocket route) and broadcasts nothing; a
moderator's update merges the patch into `settings` and broadcasts
`settingsUpdated`. -/
theorem updateSettings_auth_spec (s : RoomData) (name : String) (p : SettingsPatch)
    (hkey : s.key ≠ "") :
    (name ≠ s.moderator →
      putSettings s name p = (s, 403, []) ∧ handleUpdateSettings s name p = (s, [])) ∧
    (name = s.moderator →
      putSettings s name p =
        ({ s with settings := mergeSettings s.settings p }, 200,
          [Event.settingsUpdated (mergeSettings s.settings p)]) ∧
      handleUpdateSettings s name p =
        ({ s with settings := mergeSettings s.settings p },
          [Event.settingsUpdated (mergeSettings s.settings p)])) := by
  constructor
  · intro hne
    have hne' : s.moderator ≠ name := fun hh => hne hh.symm
    constructor
    · simp [putSettings, hkey, hne']
    · simp [handleUpdateSettings, hne']
  · intro heq
    have heq' : ¬(s.moderator ≠ name) := by simp [heq]
    constructor
    · simp [putSettings, hkey, heq']
    · simp [handleUpdateSettings, heq']

theorem updateSettings_auth_spec_witness :
    putSettings (initializeRoom "room1" "alice") "bob" SettingsPatch.empty =
      (initializeRoom "room1" "alice", 403, []) ∧
    (putSettings (initializeRoom "room1" "alice") "alice" SettingsPatch.empty).2.1 = 200 := by
  refine ⟨((updateSettings_auth_spec (initializeRoom "room1" "alice") "bob"
      SettingsPatch.empty (by decide)).1 (by decide)).1, ?_⟩
  rw [((updateSettings_auth_spec (initializeRoom "room1" "alice") "alice"
      SettingsPatch.empty (by decide)).2 rfl).1]

/-- Count of `newModerator` broadcasts in an event list. -/
def countNewModerator (evs : List Event) : Nat :=
  (evs.filter (fun e => match e with | Event.newModerator _ => true | _ => false)).length

/-- C5: when the moderator's last connection closes, the moderator role
moves to the earliest-joined still-connected user with exactly one
`newModerator` broadcast; with nobody left connected the moderator field
is untouched and no `newModerator` broadcast is sent. -/
theorem moderator_failover_spec (s : RoomData) (u : String) (h : u = s.moderator) :
    (∀ m rest,
      connectedMembers { s with connectedUsers := setEntry s.connectedUsers u false } =
          m :: rest →
      (handleCloseLast s u).1.moderator = m ∧
      countNewModerator (handleCloseLast s u).2 = 1) ∧
    (connectedMembers { s with connectedUsers := setEntry s.connectedUsers u false } = [] →
      (handleCloseLast s u).1.moderator = s.moderator ∧
      countNewModerator (handleCloseLast s u).2 = 0) := by
  constructor
  · intro m rest hconn
    simp only [handleCloseLast, if_pos h]
    rw [hconn]
    exact ⟨rfl, rfl⟩
  · intro hconn
    simp only [handleCloseLast, if_pos h]
    rw [hconn]
    exact ⟨rfl, rfl⟩

theorem moderator_failover_spec_witness :
    (handleCloseLast activeRoom "alice").1.moderator = "bob" ∧
    countNewModerator (handleCloseLast activeRoom "alice").2 = 1 ∧
    (handleCloseLast (initializeRoom "r" "alice") "alice").1.moderator = "alice" ∧
    countNewModerator (handleCloseLast (initializeRoom "r" "alice") "alice").2 = 0 := by
  have h1 := (moderator_failover_spec activeRoom "alice" rfl).1 "bob" ["carol"] (by decide)
  have h2 := (moderator_failover_spec (initializeRoom "r" "alice") "alice" rfl).2 (by decide)
  exact ⟨h1.1, h1.2, h2.1, h2.2⟩

/-- Exactly one phase flag holds: `isActive` is the negation of `isLobby`. -/
def phaseOk (s : RoomData) : Prop := s.isActive = !s.isLobby

theorem phaseOk_handleRoundEnd (s : RoomData) (b : Bool) :
    phaseOk (handleRoundEnd s b).1 := rfl

theorem phaseOk_handleCorrectGuess (s : RoomData) (u : String) (h : phaseOk s) :
    phaseOk (handleCorrectGuess s u).1 := by
  simp only [handleCorrectGuess]
  split
  · exact phaseOk_handleRoundEnd _ _
  · exact h

theorem phaseOk_handleGuess (s : RoomData) (u g : String) (t : ℚ) (h : phaseOk s) :
    phaseOk (handleGuess s u g t).1 := by
  simp only [handleGuess]
  split
  · exact h
  · split
    · exact h
    · split
      · exact phaseOk_handleCorrectGuess _ _ h
      · exact h

theorem phaseOk_updateGameTimer (s : RoomData) (h : phaseOk s) :
    phaseOk (updateGameTimer s).1 := by
  simp only [updateGameTimer]
  split
  · exact h
  · split
    · exact phaseOk_handleRoundEnd _ _
    · exact h

theorem phaseOk_startGameTimer (s : RoomData) (h : phaseOk s) :
    phaseOk (startGameTimer s) := by
  unfold startGameTimer
  split
  · exact h
  · exact h

theorem phaseOk_handleStartGame (s : RoomData) (u : String) (w d : Nat) (t : ℚ)
    (h : phaseOk s) : phaseOk (handleStartGame s u w d t).1 := by
  simp only [handleStartGame]
  split
  · exact h
  · split
    · exact h
    · apply phaseOk_startGameTimer
      split
      · rfl
      · rfl

theorem phaseOk_handleJoin (s : RoomData) (n : String) (h : phaseOk s) :
    phaseOk (handleJoin s n).1 := by
  simp only [handleJoin]
  split
  · exact h
  · exact h

theorem phaseOk_handleSessionConnect (s : RoomData) (n : String) (h : phaseOk s) :
    phaseOk (handleSessionConnect s n).1 := h

theorem phaseOk_handleCloseLast (s : RoomData) (n : String) (h : phaseOk s) :
    phaseOk (handleCloseLast s n).1 := by
  simp only [handleCloseLast]
  split
  · split
    · exact h
    · exact h
  · exact h

theorem phaseOk_handleUpdateSettings (s : RoomData) (n : String) (p : SettingsPatch)
    (h : phaseOk s) : phaseOk (handleUpdateSettings s n p).1 := by
  simp only [handleUpdateSettings]
  split
  · exact h
  · exact h

theorem phaseOk_putSettings (s : RoomData) (n : String) (p : SettingsPatch)
    (h : phaseOk s) : phaseOk (putSettings s n p).1 := by
  simp only [putSettings]
  split
  · exact h
  · split
    · exact h
    · exact h

theorem phaseOk_processAIGuess (s : RoomData) (roll : ℚ) (wp : Nat) (t : ℚ)
    (h : phaseOk s) : phaseOk (processAIGuess s roll wp t).1 := by
  simp only [processAIGuess]
  split
  · exact h
  · split
    · exact phaseOk_handleGuess _ _ _ _ h
    · split
      · split
        · exact h
        · exact phaseOk_handleGuess _ _ _ _ h
      · exact h

theorem phaseOk_handleDrawingUpdate (s : RoomData) (n data : String) (roll : ℚ)
    (wp : Nat) (t : ℚ) (h : phaseOk s) :
    phaseOk (handleDrawingUpdate s n data roll wp t).1 := by
  simp only [handleDrawingUpdate]
  split
  · exact h
  · split
    · exact h
    · split
      · exact phaseOk_processAIGuess _ _ _ _ h
      · exact h

/-- C8: in every reachable room state the two stored phase booleans are
mutually exclusive and exhaustive — `isActive` always equals the negation
of `isLobby`, and every modelled operation preserves this. -/
theorem phase_exclusive (s : RoomData) (h : Reachable s) :
    s.isActive = !s.isLobby := by
  induction h with
  | ctor => rfl
  | init k m => rfl
  | join name _ ih => exact phaseOk_handleJoin _ name ih
  | connect name _ ih => exact phaseOk_handleSessionConnect _ name ih
  | closeLast name _ ih => exact phaseOk_handleCloseLast _ name ih
  | settingsWS name p _ ih => exact phaseOk_handleUpdateSettings _ name p ih
  | settingsHTTP name p _ ih => exact phaseOk_putSettings _ name p ih
  | startGame name w d t _ ih => exact phaseOk_handleStartGame _ name w d t ih
  | tick _ ih => exact phaseOk_updateGameTimer _ ih
  | guess name g t _ ih => exact phaseOk_handleGuess _ name g t ih
  | drawing name data roll wp t _ ih =>
    exact phaseOk_handleDrawingUpdate _ name data roll wp t ih

theorem phase_exclusive_witness :
    constructorRoom.isActive = !constructorRoom.isLobby :=
  phase_exclusive constructorRoom Reachable.ctor

theorem handleCorrectGuess_scores (s : RoomData) (u : String)
    (hD : u ≠ s.currentDrawer) (hN : 0 < (nonDrawerPlayers s).length)
    (hDr : s.currentDrawer ≠ "") :
    scoreOf (handleCorrectGuess s u).1 u =
      scoreOf s u +
        (jsRound (numOr s.settings.correctGuesserScore 10 *
          (s.timeRemaining / s.settings.gameDuration) * 10) : ℚ) / 10 ∧
    scoreOf (handleCorrectGuess s u).1 s.currentDrawer =
      scoreOf s s.currentDrawer +
        (jsRound (numOr s.settings.correctDrawerScore 5 *
          (s.timeRemaining / s.settings.gameDuration) /
            ((nonDrawerPlayers s).length : ℚ) * 10) : ℚ) / 10 := by
  have hcond : 0 < (nonDrawerPlayers s).length ∧ s.currentDrawer ≠ "" := ⟨hN, hDr⟩
  have hDu : ¬(u = s.currentDrawer) := hD
  have hDru : ¬(s.currentDrawer = u) := fun hh => hD hh.symm
  constructor
  · simp only [handleCorrectGuess]
    split
    · simp only [scoreOf, handleRoundEnd_scores, Option.getD_some, if_pos hcond,
        lookupEntry_setEntry, if_neg hDu, eq_self_iff_true, ite_true]
    · simp only [scoreOf, Option.getD_some, if_pos hcond, lookupEntry_setEntry,
        if_neg hDu, eq_self_iff_true, ite_true]
  · simp only [handleCorrectGuess]
    split
    · simp only [scoreOf, handleRoundEnd_scores, Option.getD_some, if_pos hcond,
        lookupEntry_setEntry, if_neg hDru, eq_self_iff_true, ite_true]
    · simp only [scoreOf, Option.getD_some, if_pos hcond, lookupEntry_setEntry,
        if_neg hDru, eq_self_iff_true, ite_true]

/-- C4: on a correct guess the guesser gains
`round(correctGuesserScore*(timeRemaining/gameDuration)*10)/10` and the
drawer gains
`round(correctDrawerScore*(timeRemaining/gameDuration)/nonDrawerCount*10)/10`,
where the defaults 10 and 5 stand in for absent settings and
`nonDrawerCount` counts the non-drawer, non-AI participants. -/
theorem scoring_spec (s : RoomData) (u g : String) (t : ℚ)
    (hA : s.isActive = true) (hD : u ≠ s.currentDrawer)
    (hC : jsToLower (jsTrim g) = jsToLower s.targetWord)
    (hN : 0 < (nonDrawerPlayers s).length) (hDr : s.currentDrawer ≠ "") :
    scoreOf (handleGuess s u g t).1 u =
      scoreOf s u +
        (jsRound (numOr s.settings.correctGuesserScore 10 *
          (s.timeRemaining / s.settings.gameDuration) * 10) : ℚ) / 10 ∧
    scoreOf (handleGuess s u g t).1 s.currentDrawer =
      scoreOf s s.currentDrawer +
        (jsRound (numOr s.settings.correctDrawerScore 5 *
          (s.timeRemaining / s.settings.gameDuration) /
            ((nonDrawerPlayers s).length : ℚ) * 10) : ℚ) / 10 := by
  have htf : ¬(true = false) := by decide
  simp only [handleGuess, hA, if_neg htf, if_neg hD, if_pos hC]
  exact handleCorrectGuess_scores _ u hD hN hDr

theorem scoring_spec_witness :
    scoreOf (handleGuess activeRoom "bob" "cat" 0).1 "bob" = 5 ∧
    scoreOf (handleGuess activeRoom "bob" "cat" 0).1 "alice" = 13/10 := by
  have h := scoring_spec activeRoom "bob" "cat" 0 rfl (by decide) (by decide)
    (by decide) (by decide)
  have hdr : activeRoom.currentDrawer = "alice" := rfl
  rw [← hdr]
  rw [h.1, h.2]
  have hlen : (nonDrawerPlayers activeRoom).length = 2 := by decide
  constructor
  · norm_num [scoreOf, activeRoom, constructorRoom, lookupEntry, numOr,
      defaultSettings, jsRound]
  · rw [hlen]
    norm_num [scoreOf, activeRoom, constructorRoom, lookupEntry, numOr,
      defaultSettings, jsRound]

theorem contains_correctPlayers (gs : List GuessRecord) (p : String) :
    ((gs.filter (fun g => g.correct)).map (fun g => g.playerId)).contains p = true ↔
      ∃ rec ∈ gs, rec.playerId = p ∧ rec.correct = true := by
  simp [List.mem_map, List.mem_filter]
  tauto

theorem all_correct_iff (s : RoomData) :
    ((nonDrawerPlayers s).all fun p =>
      ((s.guesses.filter (fun g => g.correct)).map (fun g => g.playerId)).contains p) = true ↔
    ∀ p ∈ nonDrawerPlayers s, ∃ rec ∈ s.guesses, rec.playerId = p ∧ rec.correct = true := by
  rw [List.all_eq_true]
  constructor
  · intro hall p hp
    exact (contains_correctPlayers s.guesses p).mp (hall p hp)
  · intro hall p hp
    exact (contains_correctPlayers s.guesses p).mpr (hall p hp)

theorem handleCorrectGuess_completion (s : RoomData) (u : String) :
    ((∀ p ∈ nonDrawerPlayers s, ∃ rec ∈ s.guesses, rec.playerId = p ∧ rec.correct = true) →
      (handleCorrectGuess s u).1.isActive = false ∧
      (handleCorrectGuess s u).1.isLobby = true ∧
      (handleCorrectGuess s u).2 = [Event.roundEnd true s.targetWord]) ∧
    (¬(∀ p ∈ nonDrawerPlayers s, ∃ rec ∈ s.guesses, rec.playerId = p ∧ rec.correct = true) →
      (handleCorrectGuess s u).1.isActive = s.isActive ∧
      (handleCorrectGuess s u).2 = [Event.correctGuess u]) := by
  have hiff := all_correct_iff s
  constructor
  · intro hall
    simp only [handleCorrectGuess]
    rw [if_pos (hiff.mpr hall)]
    exact ⟨rfl, rfl, rfl⟩
  · intro hn
    simp only [handleCorrectGuess]
    rw [if_neg (fun hall => hn (hiff.mp hall))]
    exact ⟨rfl, rfl⟩

/-- C2 (amended): during an active round a correct guess ends the round
(`roundEnd success=true`) exactly when, after recording it, every
non-drawer, **non-AI** user has a correct guess recorded this round (the
source excludes `AI_PLAYER_ID` from the completion check); otherwise it
broadcasts `correctGuess` and the phase stays Active.  A round-ending
guess leaves the phase Lobby, and any guess against an inactive room is a
complete no-op, so `endRound(success=true)` cannot fire twice in a
round. -/
theorem correctGuess_completion_spec (s : RoomData) (u g : String) (t : ℚ)
    (hA : s.isActive = true) (hD : u ≠ s.currentDrawer)
    (hC : jsToLower (jsTrim g) = jsToLower s.targetWord) :
    ((∀ p ∈ nonDrawerPlayers s,
        ∃ rec ∈ s.guesses ++
          [{ playerId := u, playerName := u, guess := g, timestamp := t,
             correct := decide (jsToLower (jsTrim g) = jsToLower s.targetWord) : GuessRecord }],
          rec.playerId = p ∧ rec.correct = true) →
      (handleGuess s u g t).1.isActive = false ∧
      (handleGuess s u g t).1.isLobby = true ∧
      (handleGuess s u g t).2 = [Event.roundEnd true s.targetWord]) ∧
    (¬(∀ p ∈ nonDrawerPlayers s,
        ∃ rec ∈ s.guesses ++
          [{ playerId := u, playerName := u, guess := g, timestamp := t,
             correct := decide (jsToLower (jsTrim g) = jsToLower s.targetWord) : GuessRecord }],
          rec.playerId = p ∧ rec.correct = true) →
      (handleGuess s u g t).1.isActive = true ∧
      (handleGuess s u g t).2 = [Event.correctGuess u]) ∧
    (∀ s' : RoomData, s'.isActive = false → handleGuess s' u g t = (s', [])) := by
  have htf : ¬(true = false) := by decide
  simp only [handleGuess, hA, if_neg htf, if_neg hD, if_pos hC]
  have h := handleCorrectGuess_completion
    { s with isActive := true, guesses := s.guesses ++
        [{ playerId := u, playerName := u, guess := g, timestamp := t,
           correct := decide (jsToLower (jsTrim g) = jsToLower s.targetWord) }] } u
  refine ⟨fun hall => h.1 hall, fun hn => ?_, fun s' hs' => by simp [handleGuess, hs']⟩
  have h2 := h.2 hn
  exact ⟨h2.1, h2.2⟩

theorem correctGuess_completion_spec_witness :
    (handleGuess aiActiveRoom "bob" "cat" 5).1.isActive = false ∧
    (handleGuess aiActiveRoom "bob" "cat" 5).2 = [Event.roundEnd true "cat"] := by
  have h := (correctGuess_completion_spec aiActiveRoom "bob" "cat" 5 rfl (by decide)
    (by decide)).1 (by decide)
  exact ⟨h.1, h.2.2⟩

/-- C2 counterexample: in an active 3-participant room whose `users`
include the AI participant (drawer `alice`, guessers `bob` and the AI), a
single correct guess by `bob` already fires `roundEnd success=true`, even
though the AI — a user other than `currentDrawer` — has no correct guess
recorded.  This refutes "endRound(success=true) ... exactly when every
user other than currentDrawer has at least one correct guess". -/
theorem correctGuess_completion_counterexample :
    (AI_PLAYER_ID ∈ aiActiveRoom.users ∧ AI_PLAYER_ID ≠ aiActiveRoom.currentDrawer) ∧
    (handleGuess aiActiveRoom "bob" "cat" 5).2 = [Event.roundEnd true "cat"] ∧
    ¬(∀ p ∈ aiActiveRoom.users.filter (fun x => x ≠ aiActiveRoom.currentDrawer),
        ∃ rec ∈ (handleGuess aiActiveRoom "bob" "cat" 5).1.guesses,
          rec.playerId = p ∧ rec.correct = true) := by
  refine ⟨by decide, ?_, by decide⟩
  decide

theorem lookupEntry_foldl_zero_not_mem (us : List String) (acc : List (String × ℚ))
    (x : String) (h : x ∉ us) :
    lookupEntry (us.foldl (fun m u => setEntry m u 0) acc) x = lookupEntry acc x := by
  induction us generalizing acc with
  | nil => rfl
  | cons u rest ih =>
    simp only [List.foldl_cons]
    have hx : x ∉ rest := fun hr => h (List.mem_cons_of_mem _ hr)
    have hxu : ¬(x = u) := fun he => h (he ▸ List.mem_cons_self _ _)
    rw [ih _ hx, lookupEntry_setEntry, if_neg hxu]

theorem lookupEntry_foldl_zero_mem (us : List String) (acc : List (String × ℚ))
    (x : String) (h : x ∈ us) :
    lookupEntry (us.foldl (fun m u => setEntry m u 0) acc) x = some 0 := by
  induction us generalizing acc with
  | nil => cases h
  | cons u rest ih =>
    simp only [List.foldl_cons]
    by_cases hr : x ∈ rest
    · exact ih _ hr
    · have hxu : x = u := by
        rcases List.mem_cons.mp h with he | hr2
        · exact he
        · exact absurd hr2 hr
      rw [lookupEntry_foldl_zero_not_mem rest _ x hr, lookupEntry_setEntry, if_pos hxu]

/-- C1 counterexample: `handleStartGame` performs no phase check.  In a
room that is already Active (`isLobby = false`) a moderator start request
with enough connected players still mutates the room — here it replaces
the in-flight target word `dog` with a fresh pick.  This refutes "only
when the phase is Lobby ...; under any other condition the room state is
left unchanged". -/
theorem startRound_phase_counterexample :
    activeRoomDog.isLobby = false ∧
    activeRoomDog.targetWord = "dog" ∧
    (handleStartGame activeRoomDog "alice" 0 0 0).1.targetWord = "cat" := by
  refine ⟨rfl, rfl, ?_⟩
  have hlt : ¬(((connectedList activeRoomDog).length : ℚ) <
      activeRoomDog.settings.minPlayers) := by
    have hlen : (connectedList activeRoomDog).length = 3 := by decide
    rw [hlen]
    show ¬((3 : ℚ) < 2)
    norm_num
  have hmod : ¬(activeRoomDog.moderator ≠ "alice") := by decide
  simp only [handleStartGame, if_neg hmod, if_neg hlt, startGameTimer_targetWord]
  split
  · rfl
  · rfl

/-- C1 (amended): `startRound(by)` performs the round-start mutation —
sets the phase Active, picks the target word and the drawer from the
supplied random draws, resets `timeRemaining`/`guesses`/`hasWon`, zeroes
every user's score, starts the timer and broadcasts `gameStarted` —
whenever `by` is the moderator and the connected-user count is at least
`minPlayers`, regardless of the current phase (the source has no Lobby
check); when the authority or player-count condition fails the state is
returned unchanged with no broadcast. -/
theorem startRound_guard_spec (s : RoomData) (u : String) (w d : Nat) (t : ℚ) :
    (¬(u = s.moderator ∧ s.settings.minPlayers ≤ ((connectedList s).length : ℚ)) →
      handleStartGame s u w d t = (s, [])) ∧
    (u = s.moderator → s.settings.minPlayers ≤ ((connectedList s).length : ℚ) →
      (handleStartGame s u w d t).1.isActive = true ∧
      (handleStartGame s u w d t).1.isLobby = false ∧
      (handleStartGame s u w d t).1.targetWord = pickFrom GAME_WORDS w ∧
      (handleStartGame s u w d t).1.currentDrawer = pickFrom (connectedList s) d ∧
      (handleStartGame s u w d t).1.timeRemaining = s.settings.gameDuration ∧
      (handleStartGame s u w d t).1.guesses = [] ∧
      (handleStartGame s u w d t).1.hasWon = false ∧
      (∀ x ∈ s.users, scoreOf (handleStartGame s u w d t).1 x = 0) ∧
      (0 < s.settings.gameDuration → (handleStartGame s u w d t).1.timerInterval = 1) ∧
      (handleStartGame s u w d t).2 =
        [Event.gameStarted, Event.youAreDrawing (pickFrom GAME_WORDS w)]) := by
  constructor
  · intro hne
    by_cases hmod : u = s.moderator
    · have hnle : ¬(s.settings.minPlayers ≤ ((connectedList s).length : ℚ)) :=
        fun hle => hne ⟨hmod, hle⟩
      have hlt : ((connectedList s).length : ℚ) < s.settings.minPlayers := not_le.mp hnle
      have hmod' : ¬(s.moderator ≠ u) := by simp [hmod]
      simp [handleStartGame, hmod', hlt]
    · have hmod' : s.moderator ≠ u := fun hh => hmod hh.symm
      simp [handleStartGame, hmod']
  · intro hmod hle
    have hmod' : ¬(s.moderator ≠ u) := by simp [hmod]
    have hnlt : ¬(((connectedList s).length : ℚ) < s.settings.minPlayers) := not_lt.mpr hle
    simp only [handleStartGame, if_neg hmod', if_neg hnlt]
    refine ⟨?_, ?_, ?_, ?_, ?_, ?_, ?_, ?_, ?_, ?_⟩
    · rw [startGameTimer_isActive]
      split <;> rfl
    · rw [startGameTimer_isLobby]
      split <;> rfl
    · rw [startGameTimer_targetWord]
      split <;> rfl
    · rw [startGameTimer_currentDrawer]
      split <;> rfl
    · rw [startGameTimer_timeRemaining]
      split <;> rfl
    · rw [startGameTimer_guesses]
      split <;> rfl
    · rw [startGameTimer_hasWon]
      split <;> rfl
    · intro x hx
      simp only [scoreOf, startGameTimer_scores]
      split
      · simp only [Option.getD_some, lookupEntry_setEntry]
        by_cases hxa : x = AI_PLAYER_ID
        · simp [hxa]
        · rw [if_neg hxa, lookupEntry_foldl_zero_mem _ _ _ hx]
          rfl
      · rw [Option.getD_some, lookupEntry_foldl_zero_mem _ _ _ hx]
        rfl
    · intro hdur
      apply startGameTimer_timerInterval_pos
      · split <;> rfl
      · split <;> exact hdur
    · rw [startGameTimer_targetWord]
      split <;> rfl

theorem startRound_guard_spec_witness :
    handleStartGame activeRoom "bob" 0 0 0 = (activeRoom, []) ∧
    (handleStartGame activeRoom "alice" 0 0 0).1.isActive = true ∧
    (handleStartGame activeRoom "alice" 0 0 0).1.targetWord = "cat" := by
  have hle : activeRoom.settings.minPlayers ≤ ((connectedList activeRoom).length : ℚ) := by
    have hlen : (connectedList activeRoom).length = 3 := by decide
    rw [hlen]
    show (2 : ℚ) ≤ 3
    norm_num
  have hfail := (startRound_guard_spec activeRoom "bob" 0 0 0).1
    (fun hand => by exact absurd hand.1 (by decide))
  have hpass := (startRound_guard_spec activeRoom "alice" 0 0 0).2 rfl hle
  exact ⟨hfail, hpass.1, by rw [hpass.2.2.1]; decide⟩

/-- Trace for C10: room created by `alice`, joined by `bob` and `carol`. -/
def traceRoom0 : RoomData := initializeRoom "room1" "alice"

def traceRoom1 : RoomData := (handleJoin traceRoom0 "bob").1

def traceRoom2 : RoomData := (handleJoin traceRoom1 "carol").1

/-- The round started by `alice` with word draw 0 (`cat`), drawer draw 0
(`alice`), at clock 1000. -/
def traceRoom3 : RoomData := (handleStartGame traceRoom2 "alice" 0 0 1000).1

/-- `bob` guesses the target word the first time. -/
def traceRoom4 : RoomData := (handleGuess traceRoom3 "bob" "cat" 1).1

/-- `bob` guesses the same target word a second time. -/
def traceRoom5 : RoomData := (handleGuess traceRoom4 "bob" "cat" 2).1

/-- `bob`'s correct guess record at a given timestamp. -/
def bobGuess (ts : ℚ) : GuessRecord :=
  { playerId := "bob", playerName := "bob", guess := "cat", timestamp := ts, correct := true }

/-- The explicit value of `traceRoom3`. -/
def traceStart : RoomData :=
  { key := "room1"
    users := ["alice", "bob", "carol"]
    moderator := "alice"
    connectedUsers := [("alice", true), ("bob", true), ("carol", true)]
    timerInterval := 1
    lastAIGuessTime := 0
    isActive := true
    isLobby := false
    targetWord := "cat"
    timeRemaining := 60
    guesses := []
    hasWon := false
    currentDrawer := "alice"
    drawingData := ""
    settings := defaultSettings
    scores := some [("alice", 0), ("bob", 0), ("carol", 0)]
    statusMessage := none
    endTime := some (1000 + 60 * 1000) }

/-- The guesser award as the trace's round computes it:
`round(10 * (60/60) * 10)/10`, i.e. 10 points. -/
def guessAward : ℚ := (jsRound (numOr (some 10) 10 * ((60 : ℚ) / 60) * 10) : ℚ) / 10

/-- The drawer award as the trace's round computes it:
`round(5 * (60/60) / 2 * 10)/10`, i.e. 2.5 points. -/
def drawAward : ℚ :=
  (jsRound (numOr (some 5) 5 * ((60 : ℚ) / 60) / ((2 : ℕ) : ℚ) * 10) : ℚ) / 10

/-- The explicit value of `traceRoom4`: `bob` earned `guessAward`, the
drawer `alice` earned `drawAward`. -/
def traceAfter1 : RoomData :=
  { traceStart with
    guesses := [bobGuess 1]
    scores := some [("alice", 0 + drawAward), ("bob", 0 + guessAward), ("carol", 0)]
    statusMessage := some ⟨true, "bob guessed correctly!"⟩ }

/-- The explicit value of `traceRoom5`: the same awards were applied a
second time. -/
def traceAfter2 : RoomData :=
  { traceAfter1 with
    guesses := [bobGuess 1, bobGuess 2]
    scores := some [("alice", 0 + drawAward + drawAward),
                    ("bob", 0 + guessAward + guessAward), ("carol", 0)] }

theorem traceRoom3_eq : traceRoom3 = traceStart := by
  have hmod : ¬(traceRoom2.moderator ≠ "alice") := by decide
  have hlen : (connectedList traceRoom2).length = 3 := by decide
  have hnlt : ¬(((connectedList traceRoom2).length : ℚ) < traceRoom2.settings.minPlayers) := by
    rw [hlen]
    show ¬((3 : ℚ) < 2)
    norm_num
  have hai : ¬(traceRoom2.settings.aiEnabled.getD false = true) := by decide
  show (handleStartGame traceRoom2 "alice" 0 0 1000).1 = traceStart
  simp only [handleStartGame, if_neg hmod, if_neg hnlt, if_neg hai]
  unfold startGameTimer
  split
  · rfl
  · next hcond =>
    exfalso
    exact hcond ⟨rfl, by show (0 : ℚ) < 60; norm_num⟩

theorem traceRoom4_eq : traceRoom4 = traceAfter1 := by
  show (handleGuess traceRoom3 "bob" "cat" 1).1 = traceAfter1
  rw [traceRoom3_eq]
  rfl

theorem traceRoom5_eq : traceRoom5 = traceAfter2 := by
  show (handleGuess traceRoom4 "bob" "cat" 2).1 = traceAfter2
  rw [traceRoom4_eq]
  rfl

/-- C10: a reachable active state in which the non-AI player `bob` already
has a correct guess recorded, and submitting the target word again applies
the guesser and drawer awards again — `handleCorrectGuess` deduplicates
nothing for human players, so `bob` goes from 10 to 20 points and the
drawer `alice` from 2.5 to 5. -/
theorem repeated_correct_guess_double_award :
    Reachable traceRoom4 ∧
    traceRoom4.isActive = true ∧
    (∃ rec ∈ traceRoom4.guesses, rec.playerId = "bob" ∧ rec.correct = true) ∧
    scoreOf traceRoom4 "bob" = 10 ∧
    scoreOf traceRoom5 "bob" = 20 ∧
    scoreOf traceRoom4 "alice" = 5/2 ∧
    scoreOf traceRoom5 "alice" = 5 := by
  refine ⟨?_, ?_, ?_, ?_, ?_, ?_, ?_⟩
  · exact Reachable.guess "bob" "cat" 1
      (Reachable.startGame "alice" 0 0 1000
        (Reachable.join "carol" (Reachable.join "bob" (Reachable.init "room1" "alice"))))
  · rw [traceRoom4_eq]
    rfl
  · rw [traceRoom4_eq]
    exact ⟨bobGuess 1, by decide, rfl, rfl⟩
  · rw [traceRoom4_eq]
    simp [scoreOf, traceAfter1, traceStart, lookupEntry, List.find?]
    norm_num [guessAward, numOr, jsRound]
  · rw [traceRoom5_eq]
    simp [scoreOf, traceAfter2, traceAfter1, traceStart, lookupEntry, List.find?]
    norm_num [guessAward, numOr, jsRound]
  · rw [traceRoom4_eq]
    simp [scoreOf, traceAfter1, traceStart, lookupEntry, List.find?]
    norm_num [drawAward, numOr, jsRound]
  · rw [traceRoom5_eq]
    simp [scoreOf, traceAfter2, traceAfter1, traceStart, lookupEntry, List.find?]
    norm_num [drawAward, numOr, jsRound]

end AnyoneCanDraw
